import Mathlib

/-!
Verification of the convex-svelte query cache, observer and pagination layer.

The definitions below are a shallow embedding of the TypeScript source:
the ConvexQueryStore class (cache key generation, entry creation,
subscribe/unsubscribe, optimistic updates, delivery callbacks), the
updateLocalStateFromEntry derived-view function of useQuery, the SSR
fallback sync-read path, and the usePaginatedQuery engine (status table,
loadMore, the zero-delay timer that resets isLoadingMore, and the effect
that writes page results).

JavaScript values appearing as query arguments and results are modelled by
a JSON-like inductive type.  The external convex values library function
convexToJson is modelled as the canonical sorted-key JSON encoding, which
is the contract the specification states for the CacheKey codec.  The
RemoteClient is modelled abstractly: opening and closing of its
subscriptions is logged in the store state, and the outcome of its
synchronous local read is a parameter of the view function.
-/

/-- JSON-like values, covering the argument and result values the client
serializes. -/
inductive JValue where
  | jnull : JValue
  | jbool : Bool → JValue
  | jnum : Int → JValue
  | jstr : String → JValue
  | jarr : List JValue → JValue
  | jobj : List (String × JValue) → JValue
deriving Inhabited

/-- JavaScript truthiness of a modelled value. -/
def jtruthy : JValue → Bool
  | .jnull => false
  | .jbool b => b
  | .jnum n => n != 0
  | .jstr s => s ≠ ""
  | .jarr _ => true
  | .jobj _ => true

/-- Truthiness of an optional value, where none models undefined. -/
def truthyOpt : Option JValue → Bool
  | none => false
  | some v => jtruthy v

/-- Ordering of object fields by key, used by the canonical encoding. -/
def keyLe (p q : String × JValue) : Prop := p.1 ≤ q.1

instance : DecidableRel keyLe := fun p q => by
  unfold keyLe; infer_instance

instance : IsTotal (String × JValue) keyLe :=
  ⟨fun p q => le_total p.1 q.1⟩

instance : IsTrans (String × JValue) keyLe :=
  ⟨fun _ _ _ h1 h2 => le_trans h1 h2⟩

/-- Sorting of object fields by key. -/
def sortFields (fs : List (String × JValue)) : List (String × JValue) :=
  List.insertionSort keyLe fs

mutual

/-- Model of convexToJson from the convex values library: the canonical
JSON form of a value, with object keys sorted at every level.  This is the
sorted-key canonical encoding the specification states as the codec
contract. -/
def convexToJson : JValue → JValue
  | .jnull => .jnull
  | .jbool b => .jbool b
  | .jnum n => .jnum n
  | .jstr s => .jstr s
  | .jarr xs => .jarr (convexList xs)
  | .jobj fs => .jobj (sortFields (convexFields fs))

/-- Canonical form of every element of an array. -/
def convexList : List JValue → List JValue
  | [] => []
  | x :: xs => convexToJson x :: convexList xs

/-- Canonical form of every field value of an object. -/
def convexFields : List (String × JValue) → List (String × JValue)
  | [] => []
  | (k, v) :: fs => (k, convexToJson v) :: convexFields fs

end

mutual

/-- Model of JSON.stringify on modelled values. -/
def jsonStringify : JValue → String
  | .jnull => "null"
  | .jbool true => "true"
  | .jbool false => "false"
  | .jnum n => toString n
  | .jstr s => "\"" ++ s ++ "\""
  | .jarr xs => "[" ++ jsonStringifyList xs ++ "]"
  | .jobj fs => "\x7b" ++ jsonStringifyFields fs ++ "\x7d"

/-- Comma-separated stringification of array elements. -/
def jsonStringifyList : List JValue → String
  | [] => ""
  | [x] => jsonStringify x
  | x :: y :: xs => jsonStringify x ++ "," ++ jsonStringifyList (y :: xs)

/-- Comma-separated stringification of object fields. -/
def jsonStringifyFields : List (String × JValue) → String
  | [] => ""
  | [(k, v)] => "\"" ++ k ++ "\":" ++ jsonStringify v
  | (k, v) :: f :: fs =>
      "\"" ++ k ++ "\":" ++ jsonStringify v ++ "," ++ jsonStringifyFields (f :: fs)

end

/-- Canonical serialization of an argument object, as the source computes
it: JSON.stringify (convexToJson args). -/
def canonicalArgs (args : JValue) : String :=
  jsonStringify (convexToJson args)

/-- Model of ConvexQueryStore.generateCacheKey: functionName followed by a
colon and the canonical argument JSON. -/
def generateCacheKey (functionName : String) (args : JValue) : String :=
  functionName ++ ":" ++ canonicalArgs args

/-- Result values retained by a cache entry: either a data value delivered
by the remote side or an Error (modelled by its message). -/
inductive RVal where
  | val : JValue → RVal
  | errv : String → RVal
deriving Inhabited

/-- Truthiness of an optional last result: none models undefined, a data
value has JavaScript truthiness, an Error object is always truthy. -/
def rvalTruthyOpt : Option RVal → Bool
  | none => false
  | some (.val v) => jtruthy v
  | some (.errv _) => true

/-- Model of the QueryCacheEntry record of the source.  Subscriber
callbacks are identified by numbers; the set semantics of the JavaScript
Set is kept by inserting only absent elements.  The remote unsubscribe
handle is modelled by the numeric id of the remote subscription it would
close. -/
structure CEntry where
  data : Option JValue
  error : Option String
  isLoading : Bool
  isStale : Bool
  subscribers : List Nat
  unsub : Option Nat
  lastResult : Option RVal
  argsForLastResult : Option JValue
deriving Inhabited

/-- Environment flags of the client: BROWSER and client.disabled. -/
structure Env where
  browser : Bool
  disabled : Bool

/-- Model of the ConvexQueryStore state.  The registry maps cache keys to
indices into the entries list; entries are never removed from that list,
mirroring the JavaScript heap where an entry object outlives its deletion
from the Map whenever a closure still references it.  Opened and closed
remote subscriptions are logged (a second close of the same id appends the
id a second time), and notified subscriber callbacks are logged in
notification order. -/
structure StoreState where
  cache : List (String × Nat)
  entries : List CEntry
  nextRemote : Nat
  openedRemote : List Nat
  closedRemote : List Nat
  notified : List Nat

/-- Store state at construction time. -/
def emptyStore : StoreState :=
  { cache := [], entries := [], nextRemote := 0
    openedRemote := [], closedRemote := [], notified := [] }

/-- Lookup in the registry, modelling Map.has / Map.get. -/
def lookupKey : List (String × Nat) → String → Option Nat
  | [], _ => none
  | (k, e) :: rest, key => if k = key then some e else lookupKey rest key

/-- Deletion from the registry, modelling Map.delete (at most one mapping
per key exists, so filtering the key out is that deletion). -/
def eraseKey (c : List (String × Nat)) (key : String) : List (String × Nat) :=
  c.filter (fun p => p.1 ≠ key)

/-- Set.add semantics: append the callback only when absent. -/
def addSub (cb : Nat) (l : List Nat) : List Nat :=
  if cb ∈ l then l else l ++ [cb]

/-- Model of ConvexQueryStore.createCacheEntry.  The nextRemote argument
is the id the remote subscription receives when one is opened; the entry
holds the corresponding unsubscribe handle.  Mirrors the source field by
field, including the truthiness test initialData ? args : undefined and
the isLoading = (initialData === undefined) rule. -/
def createCacheEntry (env : Env) (nextRemote : Nat) (args : JValue)
    (initialData : Option JValue) : CEntry :=
  { data := initialData
    error := none
    isLoading := initialData.isNone
    isStale := false
    subscribers := []
    unsub := if env.browser && !env.disabled then some nextRemote else none
    lastResult := initialData.map RVal.val
    argsForLastResult := if truthyOpt initialData then some args else none }

/-- Unsubscribe handle returned by subscribe: the closure captures the
entry (by index), the callback and the cache key. -/
structure Handle where
  eid : Nat
  cb : Nat
  key : String

/-- Model of ConvexQueryStore.subscribe: compute the cache key, create the
entry (and open a remote subscription) when the key is absent, then add
the callback to the subscriber set of the entry found under the key. -/
def subscribe (s : StoreState) (env : Env) (query : String) (args : JValue)
    (cb : Nat) (initialData : Option JValue) : StoreState × Handle :=
  let key := generateCacheKey query args
  let created :=
    match lookupKey s.cache key with
    | some eid => (s, eid)
    | none =>
      let eid := s.entries.length
      let entry := createCacheEntry env s.nextRemote args initialData
      let live := env.browser && !env.disabled
      ({ s with
          cache := s.cache ++ [(key, eid)]
          entries := s.entries ++ [entry]
          nextRemote := if live then s.nextRemote + 1 else s.nextRemote
          openedRemote :=
            if live then s.openedRemote ++ [s.nextRemote] else s.openedRemote },
        eid)
  let s1 := created.1
  let eid := created.2
  let e := s1.entries.getD eid default
  let s2 := { s1 with
    entries := s1.entries.set eid { e with subscribers := addSub cb e.subscribers } }
  (s2, ⟨eid, cb, key⟩)

/-- Model of the unsubscribe closure returned by subscribe: delete the
callback from the captured entry, and when that entry has no subscribers
left, call its remote unsubscribe handle (if any) and delete the captured
cache key from the registry.  The closure neither clears the handle nor
checks that the registry still maps the key to this entry, exactly as in
the source. -/
def unsubCall (s : StoreState) (h : Handle) : StoreState :=
  let e := s.entries.getD h.eid default
  let e1 := { e with subscribers := e.subscribers.erase h.cb }
  let s1 := { s with entries := s.entries.set h.eid e1 }
  if e1.subscribers.isEmpty then
    let s2 :=
      match e1.unsub with
      | some r => { s1 with closedRemote := s1.closedRemote ++ [r] }
      | none => s1
    { s2 with cache := eraseKey s2.cache h.key }
  else s1

/-- Model of the onUpdate data callback installed by createCacheEntry:
store a copy of the value, clear the error, clear loading and staleness,
remember the result and the args that produced it, and notify the
subscribers of the entry. -/
def deliverData (s : StoreState) (eid : Nat) (args : JValue) (v : JValue) :
    StoreState :=
  let e := s.entries.getD eid default
  let e1 := { e with
    data := some v, error := none, isLoading := false, isStale := false
    lastResult := some (RVal.val v), argsForLastResult := some args }
  { s with
    entries := s.entries.set eid e1
    notified := s.notified ++ e1.subscribers }

/-- Model of the onUpdate error callback installed by createCacheEntry. -/
def deliverError (s : StoreState) (eid : Nat) (args : JValue) (msg : String) :
    StoreState :=
  let e := s.entries.getD eid default
  let e1 := { e with
    data := none, error := some msg, isLoading := false, isStale := false
    lastResult := some (RVal.errv msg), argsForLastResult := some args }
  { s with
    entries := s.entries.set eid e1
    notified := s.notified ++ e1.subscribers }

/-- Model of ConvexQueryStore.updateQueryData: look the entry up by cache
key; when it exists and has data, replace the data by the updater result,
set isStale, and notify the subscribers; otherwise do nothing.  The remote
logs are untouched because the source issues no client call here. -/
def updateQueryData (s : StoreState) (query : String) (args : JValue)
    (updater : JValue → JValue) : StoreState :=
  let key := generateCacheKey query args
  match lookupKey s.cache key with
  | none => s
  | some eid =>
    let e := s.entries.getD eid default
    match e.data with
    | none => s
    | some d =>
      let e1 := { e with data := some (updater d), isStale := true }
      { s with
        entries := s.entries.set eid e1
        notified := s.notified ++ e1.subscribers }

/-- Options of useQuery, with the shape of the UseQueryOptions type. -/
structure Options where
  initialData : Option JValue := none
  keepPreviousData : Bool := false

/-- Outcome of one synchronous call of
client.client.localQueryResult(functionName, args): per its API the call
returns a value, an Error instance, or undefined, and it may also throw an
Error or (violating its contract) a non-Error value. -/
inductive LocalReadOutcome where
  | value : JValue → LocalReadOutcome
  | errValue : String → LocalReadOutcome
  | noValue : LocalReadOutcome
  | throwErr : String → LocalReadOutcome
  | throwNonError : JValue → LocalReadOutcome

/-- Derived view a query observer exposes: data, error, isLoading and
isStale of the UseQueryReturn object. -/
structure LocalView where
  data : Option JValue
  error : Option String
  isLoading : Bool
  isStale : Bool

/-- Model of the updateLocalStateFromEntry helper of useQuery (the
browser, store-backed path).  The priority chain of the source is kept:
entry data first, then entry error, then the keep-previous-data stale
branch, then the synchronous local read; the try/catch of the source maps
a thrown Error to an error view and a thrown non-Error to the loading
view.  The function is total: the source never rethrows on this path. -/
def updateLocalStateFromEntry (e : CEntry) (argsObject : JValue)
    (opts : Options) (localRead : LocalReadOutcome) : LocalView :=
  let sameArgsAsLastResult : Bool :=
    match e.argsForLastResult with
    | some a => canonicalArgs a = canonicalArgs argsObject
    | none => false
  let staleAllowed := opts.keepPreviousData && rvalTruthyOpt e.lastResult
  let lastResultVal : Option JValue :=
    match e.lastResult with
    | some (.val v) => some v
    | _ => none
  match e.data with
  | some d => ⟨some d, none, false, e.isStale⟩
  | none =>
    match e.error with
    | some err => ⟨none, some err, false, e.isStale⟩
    | none =>
      match (if staleAllowed && !sameArgsAsLastResult then lastResultVal else none) with
      | some v => ⟨some v, none, false, true⟩
      | none =>
        match localRead with
        | .value v => ⟨some v, none, false, false⟩
        | .errValue msg => ⟨none, some msg, false, false⟩
        | .noValue => ⟨none, none, true, false⟩
        | .throwErr msg => ⟨none, some msg, false, false⟩
        | .throwNonError _ => ⟨none, none, true, false⟩

/-- Model of the syncResult derived value of the SSR fallback path of
useQuery.  The returned Except is ok on the paths where the source
produces a value (or undefined), and error v on the single path where the
source rethrows: a thrown non-Error value, after logging it.  The
haveArgsEverChanged flag and the initialData shortcut mirror the source. -/
def syncResultSSR (opts : Options) (haveArgsEverChanged : Bool)
    (stateResult : Option RVal) (disabled : Bool)
    (localRead : LocalReadOutcome) : Except JValue (Option RVal) :=
  if truthyOpt opts.initialData && !haveArgsEverChanged then
    Except.ok stateResult
  else if disabled then Except.ok none
  else
    match localRead with
    | .value v => Except.ok (some (RVal.val v))
    | .errValue msg => Except.ok (some (RVal.errv msg))
    | .noValue => Except.ok none
    | .throwErr msg => Except.ok (some (RVal.errv msg))
    | .throwNonError v => Except.error v

/-- Model of the PaginationResult the backend returns for one page. -/
structure PageResult where
  page : List JValue
  isDone : Bool
  continueCursor : String
deriving Inhabited

/-- Page descriptor of the pagination state: cursor (none is the start of
the collection), requested item count, and the delivered result when one
has arrived. -/
structure PageState where
  cursor : Option String
  numItems : Nat
  result : Option PageResult
deriving Inhabited

/-- State of usePaginatedQuery: the ordered page list, the isLoadingMore
flag, and the number of pending zero-delay timers scheduled by loadMore
(each setTimeout callback clears the flag when it fires). -/
structure PaginatedState where
  pages : List PageState
  isLoadingMore : Bool
  pendingTimeouts : Nat

/-- Derived pagination status values. -/
inductive PStatus where
  | LoadingFirstPage
  | LoadingMore
  | Exhausted
  | CanLoadMore
deriving DecidableEq, Repr

/-- Model of the derived status of usePaginatedQuery, evaluated exactly in
source order: no pages, then first page without result, then the
isLoadingMore flag, then isDone of the last page result, else
CanLoadMore. -/
def pstatus (s : PaginatedState) : PStatus :=
  match s.pages.head? with
  | none => .LoadingFirstPage
  | some firstPage =>
    if firstPage.result.isNone then .LoadingFirstPage
    else if s.isLoadingMore then .LoadingMore
    else
      match s.pages.getLast? with
      | some lastPage =>
        match lastPage.result with
        | some r => if r.isDone then .Exhausted else .CanLoadMore
        | none => .CanLoadMore
      | none => .CanLoadMore

/-- Model of loadMore(numItems): return unchanged unless the derived
status is CanLoadMore and the last page has a result; otherwise set
isLoadingMore, append the page descriptor with the continuation cursor of
the last result, and schedule the zero-delay timer that will clear the
flag. -/
def loadMore (s : PaginatedState) (numItems : Nat) : PaginatedState :=
  if pstatus s ≠ .CanLoadMore then s
  else
    match s.pages.getLast? with
    | none => s
    | some lastPage =>
      match lastPage.result with
      | none => s
      | some r =>
        { pages := s.pages ++ [⟨some r.continueCursor, numItems, none⟩]
          isLoadingMore := true
          pendingTimeouts := s.pendingTimeouts + 1 }

/-- Events the pagination state reacts to: a pending zero-delay timer
fires, or the observer of page i delivers data (the source effect writes
page results only for data deliveries). -/
inductive PEvent where
  | timeout
  | pageData : Nat → PageResult → PEvent

/-- Transition of the pagination state on one event.  A firing timer
clears isLoadingMore unconditionally, exactly as the setTimeout callback
of loadMore does; a data delivery for page i stores that result on the
page when the page exists. -/
def pstep (s : PaginatedState) : PEvent → PaginatedState
  | .timeout =>
    if s.pendingTimeouts > 0 then
      { s with isLoadingMore := false, pendingTimeouts := s.pendingTimeouts - 1 }
    else s
  | .pageData i r =>
    if i < s.pages.length then
      { s with
        pages := s.pages.set i { s.pages.getD i default with result := some r } }
    else s

/-- Environment of a live browser client: BROWSER true, client enabled. -/
def envLive : Env := ⟨true, false⟩

/-- Argument object x = 1 used by the concrete traces. -/
def argsA : JValue := .jobj [("x", .jnum 1)]

/-- Argument object x = 2 used by the concrete traces. -/
def argsB : JValue := .jobj [("x", .jnum 2)]

/-- First subscribe of the double-unsubscribe trace. -/
def c1Sub1 : StoreState × Handle := subscribe emptyStore envLive "q" argsA 0 none

/-- Store after the handle of the single subscriber is invoked once. -/
def c1AfterFirstUnsub : StoreState := unsubCall c1Sub1.1 c1Sub1.2

/-- Fresh subscribe under the same key, after full eviction. -/
def c1Sub2 : StoreState × Handle := subscribe c1AfterFirstUnsub envLive "q" argsA 1 none

/-- Store after the first, already spent unsubscribe handle is invoked a
second time. -/
def c1AfterSecondUnsub : StoreState := unsubCall c1Sub2.1 c1Sub1.2

/-- Pagination state whose single page resolved with an unfinished
result carrying continuation cursor c1. -/
def c2Start : PaginatedState :=
  ⟨[⟨none, 10, some ⟨[.jnum 1, .jnum 2], false, "c1"⟩⟩], false, 0⟩

/-- Pagination state right after loadMore(20). -/
def c2AfterLoadMore : PaginatedState := loadMore c2Start 20

/-- Pagination state after the zero-delay timer fires, before any result
of the new page arrives. -/
def c2AfterTimeout : PaginatedState := pstep c2AfterLoadMore .timeout

/-- Options with keepPreviousData set. -/
def kpOpts : Options := ⟨none, true⟩

/-- Subscribe of the keep-previous-data trace, args x = 1. -/
def c3Sub1 : StoreState × Handle := subscribe emptyStore envLive "q" argsA 0 none

/-- Store after the server delivers 42 for args x = 1. -/
def c3Delivered : StoreState := deliverData c3Sub1.1 c3Sub1.2.eid argsA (.jnum 42)

/-- Observer view for args x = 1 after that delivery. -/
def c3ViewBefore : LocalView :=
  updateLocalStateFromEntry (c3Delivered.entries.getD c3Sub1.2.eid default)
    argsA kpOpts .noValue

/-- Rebind to args x = 2: the effect cleanup invokes the old handle, the
effect body invokes it again, then subscribes under the new key. -/
def c3Sub2 : StoreState × Handle :=
  subscribe (unsubCall (unsubCall c3Delivered c3Sub1.2) c3Sub1.2) envLive "q" argsB 0 none

/-- Observer view right after the rebind, before any result for the new
args arrives and with no local sync result available. -/
def c3ViewAfter : LocalView :=
  updateLocalStateFromEntry (c3Sub2.1.entries.getD c3Sub2.2.eid default)
    argsB kpOpts .noValue

/-- Observer view after the result for the new args arrives. -/
def c3ViewNew : LocalView :=
  updateLocalStateFromEntry
    ((deliverData c3Sub2.1 c3Sub2.2.eid argsB (.jnum 43)).entries.getD c3Sub2.2.eid default)
    argsB kpOpts .noValue

/-- Fresh cache entry created by a subscribe without initial data. -/
def c6Entry : CEntry :=
  (subscribe emptyStore envLive "q" argsA 0 none).1.entries.getD 0 default

/-- Pagination state whose single page resolved with isDone set. -/
def c9Done : PaginatedState :=
  ⟨[⟨none, 10, some ⟨[.jnum 1], true, "end"⟩⟩], false, 0⟩

/-- Sequence of subscribe calls against one query: each call carries its
argument object and its callback id; the returned entry indices are
collected in call order. -/
def runSubs (env : Env) (query : String) :
    StoreState → List (JValue × Nat) → StoreState × List Nat
  | s, [] => (s, [])
  | s, c :: rest =>
    let step := subscribe s env query c.1 c.2 none
    let next := runSubs env query step.1 rest
    (next.1, step.2.eid :: next.2)

/-- Invariant used for C4: the registry holds exactly the one mapping from
key K to entry 0, exactly one remote subscription (id 0) was opened, and
the entries list has length one. -/
def oneEntryInv (s : StoreState) (K : String) : Prop :=
  s.cache = [(K, 0)] ∧ s.openedRemote = [0] ∧ s.entries.length = 1

/-- Argument object with fields a, b in one insertion order. -/
def argsAB : JValue := .jobj [("a", .jnum 1), ("b", .jnum 2)]

/-- The same argument object with the fields inserted in the other
order. -/
def argsBA : JValue := .jobj [("b", .jnum 2), ("a", .jnum 1)]

/-- C1: refuted on the code.  Unsubscribing the last observer does close
the remote subscription (id 0) once and evict the entry, and a subscribe
after full eviction does create a fresh entry with a fresh remote
subscription (id 1).  But invoking the same spent unsubscribe handle a
second time closes remote subscription 0 a second time (the close log
becomes [0, 0]) and deletes the key from the registry, evicting the entry
created later under that key while its remote subscription 1 stays open.
The useQuery effect itself invokes the old handle twice on every rebind
(once in its cleanup and once at the start of its body), so this trace is
reachable from the shipped caller. -/
theorem unsubscribe_double_close_bug :
    c1AfterFirstUnsub.closedRemote = [0] ∧
    c1AfterFirstUnsub.cache = [] ∧
    c1Sub2.1.cache = [(generateCacheKey "q" argsA, 1)] ∧
    c1Sub2.1.openedRemote = [0, 1] ∧
    c1AfterSecondUnsub.closedRemote = [0, 0] ∧
    c1AfterSecondUnsub.cache = [] ∧
    c1AfterSecondUnsub.openedRemote = [0, 1] :=
  ⟨rfl, rfl, rfl, rfl, rfl, rfl, rfl⟩

/-- C2: refuted on the code.  loadMore(20) sets isLoadingMore and the
status becomes LoadingMore, but the zero-delay timer scheduled by loadMore
clears isLoadingMore when it fires, although the observer of the new page
has delivered nothing (its result is still absent); the status then reads
CanLoadMore.  The flag is therefore not tied to result delivery, contrary
to the claim that it stays true until the page observer delivers. -/
theorem isLoadingMore_cleared_by_timer_bug :
    pstatus c2Start = .CanLoadMore ∧
    c2AfterLoadMore.isLoadingMore = true ∧
    pstatus c2AfterLoadMore = .LoadingMore ∧
    c2AfterTimeout.isLoadingMore = false ∧
    (c2AfterTimeout.pages.getLast?.bind PageState.result) = none ∧
    pstatus c2AfterTimeout = .CanLoadMore :=
  ⟨rfl, rfl, rfl, rfl, rfl, rfl⟩

/-- C3: refuted on the code.  With keepPreviousData set, the observer
shows 42 for args x = 1; when the args change to x = 2 the rebind tears
the old entry down and subscribes to a fresh entry whose lastResult is
absent, so the view is loading (data absent, isLoading true, isStale
false) instead of showing the previous value 42 as stale.  Once the new
result 43 arrives the view is fresh, as the second half of the claim
says.  The stale branch of updateLocalStateFromEntry cannot fire for a
store entry: an entry is looked up under the key of the current args, so
whenever its lastResult is set its argsForLastResult canonically equals
the current args. -/
theorem keepPreviousData_lost_across_rebind_bug :
    c3ViewBefore = ⟨some (.jnum 42), none, false, false⟩ ∧
    c3ViewAfter = ⟨none, none, true, false⟩ ∧
    c3ViewNew = ⟨some (.jnum 43), none, false, false⟩ :=
  ⟨rfl, rfl, rfl⟩

/-- C6: refuted on the code.  When the synchronous local read throws the
non-Error value boom, the store-backed observer view function silently
produces the loading view (data and error absent, isLoading true): this
path neither logs nor rethrows, the function being total on all outcomes
of the read, contrary to the claim that a non-Error throw is logged and
rethrown and never becomes a loading state. -/
theorem nonError_throw_swallowed_counterexample :
    updateLocalStateFromEntry c6Entry argsA ⟨none, false⟩
      (.throwNonError (.jstr "boom")) = ⟨none, none, true, false⟩ :=
  rfl

/-- C6 amended: on the SSR fallback path the derived sync read logs and
rethrows a thrown non-Error value, while the store-backed path converts it
to the loading view whenever the entry holds no data, no error and no
last result. -/
theorem nonError_throw_ssr_rethrows_store_loads (v : JValue) (e : CEntry)
    (args : JValue) (opts : Options) (sr : Option RVal)
    (h1 : e.data = none) (h2 : e.error = none) (h3 : e.lastResult = none) :
    syncResultSSR opts true sr false (.throwNonError v) = Except.error v ∧
    updateLocalStateFromEntry e args opts (.throwNonError v) =
      ⟨none, none, true, false⟩ := by
  constructor
  · simp [syncResultSSR]
  · simp [updateLocalStateFromEntry, h1, h2, h3, rvalTruthyOpt]

/-- Witness of the amended C6 statement at concrete inputs. -/
theorem nonError_throw_witness :
    syncResultSSR ⟨none, false⟩ true none false (.throwNonError (.jstr "boom")) =
      Except.error (.jstr "boom") ∧
    updateLocalStateFromEntry c6Entry argsB ⟨none, false⟩
      (.throwNonError (.jstr "boom")) = ⟨none, none, true, false⟩ :=
  nonError_throw_ssr_rethrows_store_loads (.jstr "boom") c6Entry argsB
    ⟨none, false⟩ none rfl rfl rfl

/-- C7: updateQueryData is a no-op when the registry holds no entry for
the canonical key or the entry has no data; when the entry has data d it
replaces the whole state by one identical except that the entry now holds
data = updater d with isStale set and the subscribers of the entry are
appended to the notification log — in particular the remote open and
close logs are untouched, so no RemoteClient call is issued. -/
theorem updateQueryData_spec (s : StoreState) (q : String) (args : JValue)
    (u : JValue → JValue) :
    (lookupKey s.cache (generateCacheKey q args) = none →
      updateQueryData s q args u = s) ∧
    (∀ eid, lookupKey s.cache (generateCacheKey q args) = some eid →
      ((s.entries.getD eid default).data = none →
        updateQueryData s q args u = s) ∧
      (∀ d, (s.entries.getD eid default).data = some d →
        updateQueryData s q args u =
          { s with
            entries := s.entries.set eid
              { s.entries.getD eid default with
                  data := some (u d), isStale := true }
            notified := s.notified ++ (s.entries.getD eid default).subscribers })) := by
  refine ⟨fun h => ?_, fun eid h => ⟨fun hd => ?_, fun d hd => ?_⟩⟩
  · simp [updateQueryData, h]
  · rw [List.getD_eq_getElem?_getD] at hd
    simp [updateQueryData, h, hd]
  · rw [List.getD_eq_getElem?_getD] at hd
    simp [updateQueryData, h, hd]

/-- Witness of the C7 statement: a concrete store whose entry for the key
holds data 42, updated by an updater that doubles the number. -/
theorem updateQueryData_spec_witness :
    updateQueryData c3Delivered "q" argsA
        (fun v => match v with | .jnum n => .jnum (2 * n) | v => v) =
      { c3Delivered with
        entries := c3Delivered.entries.set 0
          { c3Delivered.entries.getD 0 default with
              data := some (.jnum 84), isStale := true }
        notified := c3Delivered.notified ++
          (c3Delivered.entries.getD 0 default).subscribers } :=
  ((updateQueryData_spec c3Delivered "q" argsA
      (fun v => match v with | .jnum n => .jnum (2 * n) | v => v)).2
    0 rfl).2 (.jnum 42) rfl

/-- C10: when updateQueryData acts (entry present under the canonical key,
data present), every part of the state other than the data and isStale of
that entry and the notification log keeps its prior value: the registry is
unchanged (no entry created or deleted), the other fields of the updated
entry are unchanged, every other entry is unchanged, and the remote open
and close logs are unchanged. -/
theorem updateQueryData_frame (s : StoreState) (q : String) (args : JValue)
    (u : JValue → JValue) (eid : Nat) (d : JValue)
    (hl : lookupKey s.cache (generateCacheKey q args) = some eid)
    (hd : (s.entries.getD eid default).data = some d)
    (hlen : eid < s.entries.length) :
    (updateQueryData s q args u).cache = s.cache ∧
    ((updateQueryData s q args u).entries.getD eid default).data = some (u d) ∧
    ((updateQueryData s q args u).entries.getD eid default).isStale = true ∧
    ((updateQueryData s q args u).entries.getD eid default).error =
      (s.entries.getD eid default).error ∧
    ((updateQueryData s q args u).entries.getD eid default).isLoading =
      (s.entries.getD eid default).isLoading ∧
    ((updateQueryData s q args u).entries.getD eid default).lastResult =
      (s.entries.getD eid default).lastResult ∧
    ((updateQueryData s q args u).entries.getD eid default).argsForLastResult =
      (s.entries.getD eid default).argsForLastResult ∧
    ((updateQueryData s q args u).entries.getD eid default).subscribers =
      (s.entries.getD eid default).subscribers ∧
    ((updateQueryData s q args u).entries.getD eid default).unsub =
      (s.entries.getD eid default).unsub ∧
    (∀ j, j ≠ eid →
      (updateQueryData s q args u).entries.getD j default =
        s.entries.getD j default) ∧
    (updateQueryData s q args u).openedRemote = s.openedRemote ∧
    (updateQueryData s q args u).closedRemote = s.closedRemote := by
  rw [List.getD_eq_getElem?_getD] at hd
  have hset :
      (updateQueryData s q args u).entries =
        s.entries.set eid
          { s.entries.getD eid default with
              data := some (u d), isStale := true } := by
    simp [updateQueryData, hl, hd]
  have hgetD :
      (updateQueryData s q args u).entries.getD eid default =
        { s.entries.getD eid default with
            data := some (u d), isStale := true } := by
    rw [hset]
    simp [List.getD_eq_getElem?_getD, List.getElem?_set_self hlen]
  refine ⟨?_, ?_, ?_, ?_, ?_, ?_, ?_, ?_, ?_, ?_, ?_, ?_⟩
  · simp [updateQueryData, hl, hd]
  · rw [hgetD]
  · rw [hgetD]
  · rw [hgetD]
  · rw [hgetD]
  · rw [hgetD]
  · rw [hgetD]
  · rw [hgetD]
  · rw [hgetD]
  · intro j hj
    rw [hset]
    simp [List.getD_eq_getElem?_getD, List.getElem?_set_ne (Ne.symm hj)]
  · simp [updateQueryData, hl, hd]
  · simp [updateQueryData, hl, hd]

/-- Witness of the C10 frame statement on the concrete delivered store. -/
theorem updateQueryData_frame_witness :
    (updateQueryData c3Delivered "q" argsA (fun _ => .jnum 7)).cache =
      c3Delivered.cache ∧
    ((updateQueryData c3Delivered "q" argsA (fun _ => .jnum 7)).entries.getD 0
        default).subscribers =
      (c3Delivered.entries.getD 0 default).subscribers :=
  ⟨(updateQueryData_frame c3Delivered "q" argsA (fun _ => .jnum 7) 0 (.jnum 42)
      rfl rfl (by decide)).1,
    (updateQueryData_frame c3Delivered "q" argsA (fun _ => .jnum 7) 0 (.jnum 42)
      rfl rfl (by decide)).2.2.2.2.2.2.2.1⟩

/-- C8: loadMore leaves the page list unchanged unless the derived status
is exactly CanLoadMore and the last page has a result; when it acts it
appends exactly one page descriptor whose cursor is the continuation
cursor of the last result, whose numItems is the given count, and whose
result is absent. -/
theorem loadMore_spec (s : PaginatedState) (n : Nat) :
    ((pstatus s ≠ .CanLoadMore ∨ s.pages.getLast?.bind PageState.result = none) →
      (loadMore s n).pages = s.pages) ∧
    (∀ p r, pstatus s = .CanLoadMore → s.pages.getLast? = some p →
      p.result = some r →
      (loadMore s n).pages = s.pages ++ [⟨some r.continueCursor, n, none⟩]) := by
  constructor
  · intro h
    by_cases hs : pstatus s = .CanLoadMore
    · rcases h with h | h
      · exact absurd hs h
      · cases hl : s.pages.getLast? with
        | none => simp [loadMore, hs, hl]
        | some p =>
          rw [hl] at h
          simp only [Option.some_bind] at h
          simp [loadMore, hs, hl, h]
    · simp [loadMore, hs]
  · intro p r hs hl hr
    simp [loadMore, hs, hl, hr]

/-- Witness of the C8 statement: acting at a CanLoadMore state appends the
descriptor carrying cursor c1, and a call while LoadingMore leaves the
page list unchanged. -/
theorem loadMore_spec_witness :
    (loadMore c2Start 20).pages =
      c2Start.pages ++ [⟨some "c1", 20, none⟩] ∧
    (loadMore c2AfterLoadMore 5).pages = c2AfterLoadMore.pages :=
  ⟨(loadMore_spec c2Start 20).2
      ⟨none, 10, some ⟨[.jnum 1, .jnum 2], false, "c1"⟩⟩
      ⟨[.jnum 1, .jnum 2], false, "c1"⟩ rfl rfl rfl,
    (loadMore_spec c2AfterLoadMore 5).1 (Or.inl (by decide))⟩

/-- C9: the derived status follows the decision table top to bottom — it
is LoadingFirstPage exactly when no page result has arrived for the head
page (or there is no page), LoadingMore exactly when the head result is
present and the flag is set, Exhausted exactly when the head result is
present, the flag is clear and the last page result reports done, and
CanLoadMore in the remaining case; moreover once the last page result
reports done, loadMore is a no-op on the whole state. -/
theorem pstatus_table (s : PaginatedState) (n : Nat) :
    (pstatus s = .LoadingFirstPage ↔
      s.pages.head?.bind PageState.result = none) ∧
    (pstatus s = .LoadingMore ↔
      (s.pages.head?.bind PageState.result).isSome ∧ s.isLoadingMore = true) ∧
    (pstatus s = .Exhausted ↔
      (s.pages.head?.bind PageState.result).isSome ∧ s.isLoadingMore = false ∧
      (∃ p r, s.pages.getLast? = some p ∧ p.result = some r ∧
        r.isDone = true)) ∧
    (pstatus s = .CanLoadMore ↔
      (s.pages.head?.bind PageState.result).isSome ∧ s.isLoadingMore = false ∧
      (∀ p r, s.pages.getLast? = some p → p.result = some r →
        r.isDone = false)) ∧
    ((∃ p r, s.pages.getLast? = some p ∧ p.result = some r ∧
        r.isDone = true) →
      loadMore s n = s) := by
  obtain ⟨pages, ilm, pt⟩ := s
  cases pages with
  | nil => simp [pstatus, loadMore]
  | cons p ps =>
    obtain ⟨q, hq⟩ : ∃ q, (p :: ps).getLast? = some q := by
      cases hg : (p :: ps).getLast? with
      | some q => exact ⟨q, rfl⟩
      | none => simp [List.getLast?_eq_none_iff] at hg
    cases hpr : p.result with
    | none => cases ilm <;> simp [pstatus, loadMore, hpr, hq]
    | some r0 =>
      cases ilm with
      | true => simp [pstatus, loadMore, hpr, hq]
      | false =>
        cases hqr : q.result with
        | none =>
          simp [pstatus, loadMore, hpr, hq, hqr]
          rintro p1 r rfl h2
          simp [hqr] at h2
        | some r1 =>
          cases hdone : r1.isDone with
          | true => simp [pstatus, loadMore, hpr, hq, hqr, hdone]
          | false =>
            simp [pstatus, loadMore, hpr, hq, hqr, hdone]
            rintro p1 r rfl h2
            rw [hqr] at h2
            cases h2
            exact hdone

/-- Witness of the C9 statement: a state whose last page reports done is
Exhausted and loadMore leaves it unchanged. -/
theorem pstatus_table_witness :
    pstatus c9Done = .Exhausted ∧ loadMore c9Done 7 = c9Done :=
  ⟨(pstatus_table c9Done 7).2.2.1.mpr ⟨rfl, rfl, _, _, rfl, rfl, rfl⟩,
    (pstatus_table c9Done 7).2.2.2.2 ⟨_, _, rfl, rfl, rfl⟩⟩

/-- A subscribe whose canonical key is already the one registered reuses
entry 0, opens no remote subscription, and preserves the invariant. -/
theorem subscribe_existing (s : StoreState) (env : Env) (q : String)
    (args : JValue) (cb : Nat) (K : String)
    (hK : generateCacheKey q args = K) (hinv : oneEntryInv s K) :
    (subscribe s env q args cb none).2.eid = 0 ∧
    oneEntryInv (subscribe s env q args cb none).1 K := by
  obtain ⟨hc, ho, hl⟩ := hinv
  constructor
  · simp [subscribe, hK, hc, lookupKey]
  · refine ⟨?_, ?_, ?_⟩
    · simp [subscribe, hK, hc, lookupKey]
    · simp [subscribe, hK, hc, lookupKey, ho]
    · simp [subscribe, hK, hc, lookupKey, hl]

/-- The first subscribe on an empty store with a live client creates entry
0 for the key of its args, opens remote subscription 0, and establishes
the invariant. -/
theorem subscribe_fresh (env : Env) (q : String) (args : JValue) (cb : Nat)
    (hb : env.browser = true) (hd : env.disabled = false) :
    (subscribe emptyStore env q args cb none).2.eid = 0 ∧
    oneEntryInv (subscribe emptyStore env q args cb none).1
      (generateCacheKey q args) := by
  obtain ⟨b, d⟩ := env
  cases hb
  cases hd
  refine ⟨rfl, rfl, rfl, rfl⟩

/-- Any sequence of subscribes whose canonical keys all equal K preserves
the invariant and returns entry 0 on every call. -/
theorem runSubs_preserved (env : Env) (q : String) (K : String) :
    ∀ (calls : List (JValue × Nat)) (s : StoreState),
    (∀ c ∈ calls, generateCacheKey q c.1 = K) → oneEntryInv s K →
    oneEntryInv (runSubs env q s calls).1 K ∧
    (runSubs env q s calls).2 = List.replicate calls.length 0 := by
  intro calls
  induction calls with
  | nil => intro s _ hinv; exact ⟨hinv, rfl⟩
  | cons c rest ih =>
    intro s hkeys hinv
    have hc := hkeys c (List.mem_cons_self c rest)
    have hstep := subscribe_existing s env q c.1 c.2 K hc hinv
    have hrest := ih (subscribe s env q c.1 c.2 none).1
      (fun x hx => hkeys x (List.mem_cons_of_mem c hx)) hstep.2
    refine ⟨hrest.1, ?_⟩
    show (subscribe s env q c.1 c.2 none).2.eid ::
        (runSubs env q (subscribe s env q c.1 c.2 none).1 rest).2 =
      List.replicate (rest.length + 1) 0
    rw [hstep.1, hrest.2, List.replicate_succ]

/-- C4: for a live client and any nonempty sequence of subscribe calls
whose (query, args) pairs share one canonical cache key — whatever the
call order, callback identity or field order of the argument objects —
the store ends with exactly the one registry entry created by the first
call, exactly one remote subscription was ever opened, and every call
returned that same entry. -/
theorem subscribe_dedup (env : Env) (q : String) (c0 : JValue × Nat)
    (calls : List (JValue × Nat))
    (hb : env.browser = true) (hd : env.disabled = false)
    (hkeys : ∀ c ∈ calls, generateCacheKey q c.1 = generateCacheKey q c0.1) :
    (runSubs env q emptyStore (c0 :: calls)).1.cache =
      [(generateCacheKey q c0.1, 0)] ∧
    (runSubs env q emptyStore (c0 :: calls)).1.openedRemote = [0] ∧
    (runSubs env q emptyStore (c0 :: calls)).2 =
      List.replicate (c0 :: calls).length 0 := by
  have hfirst := subscribe_fresh env q c0.1 c0.2 hb hd
  have hrest := runSubs_preserved env q (generateCacheKey q c0.1) calls
    (subscribe emptyStore env q c0.1 c0.2 none).1 hkeys hfirst.2
  refine ⟨hrest.1.1, hrest.1.2.1, ?_⟩
  show (subscribe emptyStore env q c0.1 c0.2 none).2.eid ::
      (runSubs env q (subscribe emptyStore env q c0.1 c0.2 none).1 calls).2 =
    List.replicate (calls.length + 1) 0
  rw [hfirst.1, hrest.2, List.replicate_succ]

/-- Canonicalizing the field values commutes with viewing the field list
as a map. -/
theorem convexFields_eq_map (l : List (String × JValue)) :
    convexFields l = l.map (fun p => (p.1, convexToJson p.2)) := by
  induction l with
  | nil => rfl
  | cons p rest ih =>
    cases p
    simp [convexFields, ih]

/-- Two key-sorted field lists that are permutations of each other and
have no duplicate keys are equal. -/
theorem sorted_nodupkeys_perm_eq :
    ∀ (l1 l2 : List (String × JValue)), l1.Perm l2 →
    (l1.map Prod.fst).Nodup →
    l1.Sorted keyLe → l2.Sorted keyLe → l1 = l2 := by
  intro l1
  induction l1 with
  | nil =>
    intro l2 hp _ _ _
    exact (List.Perm.eq_nil hp.symm).symm
  | cons a t1 ih =>
    intro l2 hp hnd hs1 hs2
    cases l2 with
    | nil =>
      have := List.Perm.eq_nil hp
      simp at this
    | cons b t2 =>
      have hnd1 : a.1 ∉ t1.map Prod.fst ∧ (t1.map Prod.fst).Nodup := by
        rw [List.map_cons] at hnd
        exact List.nodup_cons.mp hnd
      have hab : a = b := by
        have hainb : a ∈ b :: t2 := hp.subset (List.mem_cons_self a t1)
        have hbina : b ∈ a :: t1 := hp.symm.subset (List.mem_cons_self b t2)
        rcases List.mem_cons.mp hbina with hba | hbt1
        · exact hba.symm
        rcases List.mem_cons.mp hainb with hab | hat2
        · exact hab
        · have h1 : a.1 ≤ b.1 := (List.sorted_cons.mp hs1).1 b hbt1
          have h2 : b.1 ≤ a.1 := (List.sorted_cons.mp hs2).1 a hat2
          have hkey : a.1 = b.1 := le_antisymm h1 h2
          have hmem : a.1 ∈ t1.map Prod.fst := by
            rw [hkey]
            exact List.mem_map_of_mem Prod.fst hbt1
          exact absurd hmem hnd1.1
      subst hab
      have ht : t1 = t2 :=
        ih t2 hp.cons_inv hnd1.2 (List.sorted_cons.mp hs1).2
          (List.sorted_cons.mp hs2).2
      rw [ht]

/-- Sorting by key is invariant under permutation of a field list without
duplicate keys. -/
theorem sortFields_eq_of_perm (l1 l2 : List (String × JValue))
    (hp : l1.Perm l2) (hnd : (l1.map Prod.fst).Nodup) :
    sortFields l1 = sortFields l2 := by
  apply sorted_nodupkeys_perm_eq
  · exact (List.perm_insertionSort keyLe l1).trans
      (hp.trans (List.perm_insertionSort keyLe l2).symm)
  · exact (((List.perm_insertionSort keyLe l1).map Prod.fst).nodup_iff).mpr hnd
  · exact List.sorted_insertionSort keyLe l1
  · exact List.sorted_insertionSort keyLe l2

/-- Shared lemma: the cache key encoding is invariant under permutation
of a duplicate-free argument record. -/
theorem generateCacheKey_perm_aux (f : String)
    (fields1 fields2 : List (String × JValue))
    (hp : fields1.Perm fields2) (hnd : (fields1.map Prod.fst).Nodup) :
    generateCacheKey f (.jobj fields1) = generateCacheKey f (.jobj fields2) := by
  have hpf : (convexFields fields1).Perm (convexFields fields2) := by
    rw [convexFields_eq_map, convexFields_eq_map]
    exact hp.map _
  have hndf : ((convexFields fields1).map Prod.fst).Nodup := by
    rw [convexFields_eq_map, List.map_map]
    exact hnd
  have hs := sortFields_eq_of_perm _ _ hpf hndf
  unfold generateCacheKey canonicalArgs
  simp [convexToJson, hs]

/-- C5: the cache key encoding is invariant under reordering of the
argument record: for every function identity and every two field lists
that are permutations of each other with no duplicate keys, the generated
cache keys are equal. -/
theorem generateCacheKey_reorder (f : String)
    (fields1 fields2 : List (String × JValue))
    (hp : fields1.Perm fields2) (hnd : (fields1.map Prod.fst).Nodup) :
    generateCacheKey f (.jobj fields1) = generateCacheKey f (.jobj fields2) :=
  generateCacheKey_perm_aux f fields1 fields2 hp hnd

/-- Witness of the C5 statement at the concrete reordered records. -/
theorem generateCacheKey_reorder_witness :
    ([(("b" : String), JValue.jnum 2), ("a", JValue.jnum 1)]).Perm
      [(("a" : String), JValue.jnum 1), ("b", JValue.jnum 2)] ∧
    generateCacheKey "q" (.jobj [("b", .jnum 2), ("a", .jnum 1)]) =
      generateCacheKey "q" (.jobj [("a", .jnum 1), ("b", .jnum 2)]) :=
  ⟨List.Perm.swap _ _ _,
    generateCacheKey_reorder "q" _ _ (List.Perm.swap _ _ _) (by decide)⟩

/-- Witness of the C4 statement: two subscribe calls whose argument
objects carry the same fields in different insertion order share entry 0
and exactly one remote subscription. -/
theorem subscribe_dedup_witness :
    (runSubs envLive "q" emptyStore [(argsBA, 0), (argsAB, 1)]).1.openedRemote
      = [0] ∧
    (runSubs envLive "q" emptyStore [(argsBA, 0), (argsAB, 1)]).2 = [0, 0] :=
  have hkeys : ∀ c ∈ [(argsAB, 1)],
      generateCacheKey "q" c.1 = generateCacheKey "q" (argsBA, (0 : Nat)).1 := by
    intro c hc
    rw [List.mem_singleton] at hc
    subst hc
    exact generateCacheKey_perm_aux "q" _ _ (List.Perm.swap _ _ _) (by decide)
  have h := subscribe_dedup envLive "q" (argsBA, 0) [(argsAB, 1)] rfl rfl hkeys
  ⟨h.2.1, h.2.2⟩
